import Mathlib

/-!
Shallow embedding of the inter-agent negotiation protocol from
src/applications/insurance-claims-processing/src/shared/agent_negotiation_protocol.py.

Python floats are embedded as rationals (ℚ); Python dicts from resource kind /
agent id to float are embedded as association lists with unique keys (Python
dicts cannot hold duplicate keys, so lemmas that need it take a nodup-keys
hypothesis).  Nondeterministic inputs of the source (the np.random.random()
draw inside _calculate_offer_confidence) are passed in as explicit parameters.
Fields generated nondeterministically and read by no operation (offer_id via
uuid4, created_at / per-offer deadline timestamps, the free-form proposal
payload) are omitted from the offer record.
-/

namespace NegotiationProtocol

/-- Association-list embedding of a Python `Dict[str, float]`. -/
abbrev RMap := List (String × ℚ)

/-- Embedding of Python `dict.get(k, d)`: value of the (unique) entry with key
`k`, or the default `d` when no entry has that key. -/
def RMap.getD : RMap → String → ℚ → ℚ
  | [], _, d => d
  | p :: rest, k, d => if p.1 = k then p.2 else RMap.getD rest k d

/-- Multiply every value of the map by `c`, keeping keys: the shape of the
dict comprehensions and value-update loops of the source. -/
def RMap.scale (m : RMap) (c : ℚ) : RMap :=
  m.map (fun p => (p.1, p.2 * c))

/-- Embedding of Python `d[k] = v`: replace the value of the existing entry
with key `k`, or append a fresh entry when the key is absent. -/
def RMap.set : RMap → String → ℚ → RMap
  | [], k, v => [(k, v)]
  | p :: rest, k, v => if p.1 = k then (k, v) :: rest else p :: RMap.set rest k v

/-- Embedding of `if k in d: d[k] -= v` (source line 499-500): decrement the
entry with key `k` when present, leave the map unchanged otherwise. -/
def RMap.subAt (m : RMap) (k : String) (v : ℚ) : RMap :=
  m.map (fun p => if p.1 = k then (p.1, p.2 - v) else p)

/-- Keys are pairwise distinct, as in any Python dict. -/
def RMap.keysNodup (m : RMap) : Prop := (m.map Prod.fst).Nodup

/-- Enum NegotiationType (source lines 17-24). -/
inductive NegotiationType where
  | resource_allocation
  | task_assignment
  | information_sharing
  | conflict_resolution
  | collaborative_analysis
  | workload_balancing
  deriving DecidableEq

/-- Enum NegotiationStatus (source lines 26-35). -/
inductive NegotiationStatus where
  | initiated
  | in_progress
  | offer_made
  | counter_offer
  | accepted
  | rejected
  | expired
  | completed
  deriving DecidableEq

/-- Dataclass AgentCapability (source lines 74-83). -/
structure AgentCapability where
  agent_id : String
  available_resources : RMap
  expertise_areas : List String
  current_workload : ℚ
  collaboration_history : RMap
  negotiation_style : String
  trust_scores : RMap
  deriving DecidableEq

/-- Dataclass NegotiationOffer (source lines 44-58); uuid / timestamp /
free-form proposal fields omitted (see file header). -/
structure NegotiationOffer where
  from_agent : String
  to_agent : String
  negotiation_type : NegotiationType
  resources_requested : RMap
  resources_offered : RMap
  constraints : List String
  priority : ℚ
  confidence : ℚ
  deriving DecidableEq

/-- Incoming request details dict: the keys the source reads from it
(`resources_needed`, `required_expertise`, `priority`) as plain fields. -/
structure Request where
  resources_needed : RMap
  required_expertise : List String
  priority : ℚ
  deriving DecidableEq

/-- One negotiation-session dict (source lines 146-158 for the initiator,
231-241 for the responder).  The responder's dict carries no `max_rounds`,
`deadline` or `initial_request` key — the source later reads those with
`.get` defaults — hence the Option fields. -/
structure Negotiation where
  negotiation_type : NegotiationType
  status : NegotiationStatus
  current_round : ℕ
  max_rounds : Option ℕ
  deadline : Option ℚ
  initial_request : Option Request
  peer_offer : Option NegotiationOffer
  history : List NegotiationOffer
  our_last_offer : Option NegotiationOffer
  deriving DecidableEq

/-- Agreement dict as read by _execute_agreement (source lines 497-508):
`resources_committed`, `workload_increase` and `peer_agent` via `.get` with
defaults `{}`, `0.0`, `""`.  The dict built by _create_agreement (line 572)
carries none of these keys, so it reads as the all-default agreement. -/
structure Agreement where
  resources_committed : RMap
  workload_increase : ℚ
  peer_agent : String
  deriving DecidableEq

/-- Default request dict `{}` (all `.get` defaults). -/
def Request.empty : Request := ⟨[], [], 1/2⟩

/-! Engine operations, translated function by function from class
AgentNegotiationEngine.  `self.capabilities` becomes an explicit
`AgentCapability` argument/result; `len(self.active_negotiations)` becomes the
explicit argument `numActive`. -/

/-- Source method _calculate_available_resources (source lines 514-517):
`{k: v * (1.0 - current_workload) for k, v in available_resources.items()}`. -/
def calculate_available_resources (caps : AgentCapability) : RMap :=
  RMap.scale caps.available_resources (1 - caps.current_workload)

/-- Source method _extract_resource_requirements (source lines 519-521):
`request.get("resources_needed", {})`. -/
def extract_resource_requirements (req : Request) : RMap :=
  req.resources_needed

/-- Source method _generate_constraints (source lines 523-530). -/
def generate_constraints (caps : AgentCapability) (numActive : ℕ) : List String :=
  (if 7/10 < caps.current_workload then ["high_workload_priority_only"] else []) ++
    (if 3 < numActive then ["limited_concurrent_negotiations"] else [])

/-- Source method _calculate_offer_confidence (source lines 532-535):
`0.7 + np.random.random() * 0.3`, with the random draw passed in as `rand`. -/
def calculate_offer_confidence (offered requested : RMap) (rand : ℚ) : ℚ :=
  7/10 + rand * (3/10)

/-- Source method _assess_our_needs (source lines 559-560): a stub that returns the empty
dict for every request. -/
def assess_our_needs (req : Request) : RMap := []

/-- Source method _determine_negotiation_strategy (source lines 562-563): constantly
returns the adaptive strategy. -/
def determine_negotiation_strategy (caps : AgentCapability) (fromAgent : String)
    (offer : NegotiationOffer) : String :=
  "adaptive"

/-- Source method _calculate_potential_benefit (source lines 565-566): a stub that returns
the constant 0.6. -/
def calculate_potential_benefit (offer : NegotiationOffer) (req : Request) : ℚ :=
  3/5

/-- Source method _create_agreement (source lines 571-572): the returned dict holds only
`agreement_id` and `terms`, so every key _execute_agreement later reads from
it falls back to its `.get` default. -/
def create_agreement (offer : NegotiationOffer) (neg : Negotiation) : Agreement :=
  { resources_committed := [], workload_increase := 0, peer_agent := "" }

/-- Source method _formulate_initial_offer (source lines 174-208). -/
def formulate_initial_offer (caps : AgentCapability) (numActive : ℕ)
    (target : String) (nt : NegotiationType) (req : Request) (rand : ℚ) :
    NegotiationOffer :=
  let resources_offered := calculate_available_resources caps
  let resources_requested := extract_resource_requirements req
  let trust_level := caps.trust_scores.getD target (1/2)
  let collaboration_success := caps.collaboration_history.getD target (1/2)
  let offer_generosity := (trust_level + collaboration_success) / 2
  let resources_offered := RMap.scale resources_offered offer_generosity
  { from_agent := caps.agent_id
    to_agent := target
    negotiation_type := nt
    resources_requested := resources_requested
    resources_offered := resources_offered
    constraints := generate_constraints caps numActive
    priority := req.priority
    confidence := calculate_offer_confidence resources_offered resources_requested rand }

/-- Source method _evaluate_negotiation_participation (source lines 256-292), as a chain of
early returns.  The resource check embeds the for-loop with early `return
False`; the expertise check embeds `len(set(required) & set(areas)) == 0`
(guarded by `if required_expertise:`, i.e. by nonemptiness). -/
def evaluate_negotiation_participation (caps : AgentCapability)
    (fromAgent : String) (offer : NegotiationOffer) (req : Request) : Bool :=
  if caps.trust_scores.getD fromAgent (1/2) < 3/10 then false
  else if ∃ p ∈ extract_resource_requirements req,
      (calculate_available_resources caps).getD p.1 0 < p.2 * (1/2) then false
  else if 4/5 < caps.current_workload then false
  else if req.required_expertise ≠ [] ∧
      ∀ e ∈ req.required_expertise, e ∉ caps.expertise_areas then false
  else if calculate_potential_benefit offer req < 3/10 then false
  else true

/-- Source method _formulate_counter_offer (source lines 294-340). -/
def formulate_counter_offer (caps : AgentCapability) (numActive : ℕ)
    (fromAgent : String) (initialOffer : NegotiationOffer) (req : Request)
    (rand : ℚ) : NegotiationOffer :=
  let our_available := calculate_available_resources caps
  let our_needs := assess_our_needs req
  let strategy := determine_negotiation_strategy caps fromAgent initialOffer
  let pair :=
    if strategy = "cooperative" then
      (RMap.scale our_available (4/5), RMap.scale our_needs (7/10))
    else if strategy = "competitive" then
      (RMap.scale our_available (2/5), RMap.scale our_needs (6/5))
    else
      let trust_factor := caps.trust_scores.getD fromAgent (1/2)
      let offer_factor := 2/5 + trust_factor * (2/5)
      let request_factor := 1 - trust_factor * (3/10)
      (RMap.scale our_available offer_factor, RMap.scale our_needs request_factor)
  { from_agent := caps.agent_id
    to_agent := fromAgent
    negotiation_type := initialOffer.negotiation_type
    resources_requested := pair.2
    resources_offered := pair.1
    constraints := generate_constraints caps numActive
    priority := initialOffer.priority
    confidence := calculate_offer_confidence pair.1 pair.2 rand }

/-- Core of _evaluate_offer (source lines 407-451) with `our_needs` abstracted
at its binding site (line 417 computes it by calling the stub
_assess_our_needs; `evaluate_offer` below re-instantiates that call).
needs_satisfaction is the accumulate-then-divide loop of lines 420-426,
request_reasonableness the multiplicative loop of lines 429-434. -/
def evaluate_offer_with (caps : AgentCapability) (ourNeeds : RMap)
    (offer : NegotiationOffer) : ℚ :=
  let resources_offered := offer.resources_offered
  let resources_requested := offer.resources_requested
  let our_available := calculate_available_resources caps
  let needs_satisfaction :=
    if ourNeeds.isEmpty then 0
    else (ourNeeds.map (fun p =>
        let offered_amount := resources_offered.getD p.1 0
        if 0 < p.2 then min 1 (offered_amount / p.2) else 1)).sum /
      (ourNeeds.length : ℚ)
  let request_reasonableness :=
    (resources_requested.map (fun p =>
        let available := our_available.getD p.1 0
        if available < p.2 then available / p.2 else 1)).prod
  let trust_bonus := caps.trust_scores.getD offer.from_agent (1/2) * (1/10)
  let history_bonus := caps.collaboration_history.getD offer.from_agent (1/2) * (1/10)
  let score := needs_satisfaction * (2/5) + request_reasonableness * (2/5) +
    trust_bonus + history_bonus
  let score := score * (1/2 + offer.confidence * (1/2))
  min 1 score

/-- Source method _evaluate_offer (source lines 407-451): the needs come from
`_assess_our_needs(negotiation.get("initial_request", {}))`. -/
def evaluate_offer (caps : AgentCapability) (neg : Negotiation)
    (offer : NegotiationOffer) : ℚ :=
  evaluate_offer_with caps (assess_our_needs (neg.initial_request.getD Request.empty)) offer

/-- Resource-map part of _refine_offer (source lines 456-474): raise every
offered amount by `(1 + improvement)`, lower every requested amount by
`(1 - improvement * 0.5)`, then clamp every offered amount to
`min(amount, our_available.get(resource, 0) * 0.9)`. -/
def refine_resources (caps : AgentCapability) (offered requested : RMap)
    (score : ℚ) : RMap × RMap :=
  let improvement_factor := (1 - score) * (3/10)
  let offered1 := RMap.scale offered (1 + improvement_factor)
  let requested1 := RMap.scale requested (1 - improvement_factor * (1/2))
  let our_available := calculate_available_resources caps
  let offered2 := offered1.map
    (fun p => (p.1, min p.2 (our_available.getD p.1 0 * (9/10))))
  (offered2, requested1)

/-- Source method _refine_offer (source lines 453-491), building the fresh refined offer
from `negotiation["our_last_offer"]` (absent on the first refinement, hence
`.get`-style empty maps) and the peer's offer. -/
def refine_offer (caps : AgentCapability) (numActive : ℕ)
    (peerOffer : NegotiationOffer) (ourLast : Option NegotiationOffer)
    (score : ℚ) : NegotiationOffer :=
  let offered := (ourLast.map NegotiationOffer.resources_offered).getD []
  let requested := (ourLast.map NegotiationOffer.resources_requested).getD []
  let improvement_factor := (1 - score) * (3/10)
  let pair := refine_resources caps offered requested score
  { from_agent := caps.agent_id
    to_agent := peerOffer.from_agent
    negotiation_type := peerOffer.negotiation_type
    resources_requested := pair.2
    resources_offered := pair.1
    constraints := generate_constraints caps numActive
    priority := peerOffer.priority
    confidence := min 1 (score + improvement_factor) }

/-- Observable effect of one _refine_offer call on the previously created
offer object.  In the source, line 490 stores `refined_offer.__dict__` as
`negotiation["our_last_offer"]`, so on the next call line 459-461 alias the
previous offer's own `resources_offered` / `resources_requested` dicts, and
the in-place loops of lines 464-474 mutate them.  The second component is the
previous offer as observed after the call. -/
def refine_offer_from (caps : AgentCapability) (numActive : ℕ)
    (peerOffer : NegotiationOffer) (prev : NegotiationOffer) (score : ℚ) :
    NegotiationOffer × NegotiationOffer :=
  let pair := refine_resources caps prev.resources_offered prev.resources_requested score
  (refine_offer caps numActive peerOffer (some prev) score,
    { prev with resources_offered := pair.1, resources_requested := pair.2 })

/-- Source method _update_collaboration_history (source lines 577-581). -/
def update_collaboration_history (caps : AgentCapability) (agentId : String)
    (success : Bool) : AgentCapability :=
  let current_rate := caps.collaboration_history.getD agentId (1/2)
  let new_rate := current_rate * (9/10) + (if success then 1 else 0) * (1/10)
  { caps with collaboration_history := caps.collaboration_history.set agentId new_rate }

/-- Source method _update_trust_score (source lines 583-587). -/
def update_trust_score (caps : AgentCapability) (agentId : String)
    (change : ℚ) : AgentCapability :=
  let current_trust := caps.trust_scores.getD agentId (1/2)
  let new_trust := max 0 (min 1 (current_trust + change))
  { caps with trust_scores := caps.trust_scores.set agentId new_trust }

/-- Source method _execute_agreement (source lines 493-511): subtract every committed
amount from the matching available resource (no lower clamp), raise the
workload clamped to 1, and on a named peer record the collaboration and a
+0.05 trust change. -/
def execute_agreement (caps : AgentCapability) (ag : Agreement) : AgentCapability :=
  let newAvail := ag.resources_committed.foldl (fun m p => m.subAt p.1 p.2)
    caps.available_resources
  let caps := { caps with available_resources := newAvail }
  let caps := { caps with current_workload := min 1 (caps.current_workload + ag.workload_increase) }
  if ag.peer_agent ≠ "" then
    update_trust_score (update_collaboration_history caps ag.peer_agent true)
      ag.peer_agent (1/20)
  else caps

/-- Outcome of _handle_counter_offer, mirroring its three return paths
(source lines 380, 392, 405); the rejection carries the reason string sent in
the rejection message (line 388). -/
inductive CounterOfferOutcome where
  | accepted (agreement : Agreement)
  | rejected (reason : String)
  | counterOffered (offer : NegotiationOffer)
  deriving DecidableEq

/-- Discriminator used by concrete scenario statements. -/
def CounterOfferOutcome.isCounterOffered : CounterOfferOutcome → Bool
  | counterOffered _ => true
  | _ => false

/-- Source method _handle_counter_offer (source lines 346-405) for a session already found
in active_negotiations (unknown ids return an error at line 354 without
touching any session).  Returns the updated session, the updated agent
capabilities, and the outcome. -/
def handle_counter_offer (caps : AgentCapability) (numActive : ℕ)
    (neg : Negotiation) (offer : NegotiationOffer) :
    Negotiation × AgentCapability × CounterOfferOutcome :=
  let neg := { neg with current_round := neg.current_round + 1 }
  let neg := { neg with peer_offer := some offer }
  let neg := { neg with history := neg.history ++ [offer] }
  let acceptance_score := evaluate_offer caps neg offer
  if 4/5 < acceptance_score then
    let neg := { neg with status := NegotiationStatus.accepted }
    let agreement := create_agreement offer neg
    (neg, execute_agreement caps agreement, CounterOfferOutcome.accepted agreement)
  else if neg.max_rounds.getD 10 ≤ neg.current_round then
    let neg := { neg with status := NegotiationStatus.rejected }
    (neg, caps, CounterOfferOutcome.rejected ("max_rounds_exceeded"))
  else
    let refined := refine_offer caps numActive offer neg.our_last_offer acceptance_score
    let neg := { neg with our_last_offer := some refined }
    (neg, caps, CounterOfferOutcome.counterOffered refined)

/-- Outcome of _handle_negotiation_request (source lines 210-254). -/
inductive RequestOutcome where
  | declined (reason : String) (alternatives : List String)
  | countered (session : Negotiation) (counter : NegotiationOffer)
  deriving DecidableEq

/-- Source method _suggest_alternatives (source lines 546-548). -/
def suggest_alternatives (req : Request) : List String :=
  ["partial_collaboration", "delayed_execution", "resource_sharing"]

/-- Source method _handle_negotiation_request (source lines 210-254): run the participation
gate; on failure reply with a rejection (no session is created, no offer
round is consumed), otherwise create the responder session and reply with a
counter-offer. -/
def handle_negotiation_request (caps : AgentCapability) (numActive : ℕ)
    (fromAgent : String) (nt : NegotiationType) (initialOffer : NegotiationOffer)
    (req : Request) (rand : ℚ) : RequestOutcome :=
  if evaluate_negotiation_participation caps fromAgent initialOffer req then
    let session : Negotiation :=
      { negotiation_type := nt
        status := NegotiationStatus.in_progress
        current_round := 1
        max_rounds := none
        deadline := none
        initial_request := none
        peer_offer := some initialOffer
        history := [initialOffer]
        our_last_offer := none }
    RequestOutcome.countered session
      (formulate_counter_offer caps numActive fromAgent initialOffer req rand)
  else
    RequestOutcome.declined ("insufficient_resources_or_interest")
      (suggest_alternatives req)

/-- Source method _handle_acceptance (source lines 594-601) for a session present in
active_negotiations: set the status to COMPLETED (whatever it was) and
execute the agreement carried by the message. -/
def handle_acceptance (caps : AgentCapability) (neg : Negotiation)
    (ag : Agreement) : Negotiation × AgentCapability :=
  ({ neg with status := NegotiationStatus.completed }, execute_agreement caps ag)

/-- One capability-mutating engine operation, for iterated-update claims. -/
inductive EngineOp where
  | updateTrust (agentId : String) (change : ℚ)
  | updateCollaboration (agentId : String) (success : Bool)
  | executeAgreement (ag : Agreement)
  deriving DecidableEq

/-- Apply one engine operation to the agent's capabilities. -/
def EngineOp.apply (caps : AgentCapability) : EngineOp → AgentCapability
  | updateTrust a c => update_trust_score caps a c
  | updateCollaboration a s => update_collaboration_history caps a s
  | executeAgreement ag => execute_agreement caps ag

/-- Apply a finite sequence of engine operations. -/
def applyOps (caps : AgentCapability) (ops : List EngineOp) : AgentCapability :=
  ops.foldl EngineOp.apply caps

/-! Invariant predicates over the capability record (the value ranges of the
data model: trust and collaboration scores in [0,1], nominal resource amounts
nonnegative, workload in [0,1]). -/

/-- Trust and collaboration-history values lie in [0,1]. -/
def TrustCollabInRange (c : AgentCapability) : Prop :=
  (∀ p ∈ c.trust_scores, 0 ≤ p.2 ∧ p.2 ≤ 1) ∧
    (∀ p ∈ c.collaboration_history, 0 ≤ p.2 ∧ p.2 ≤ 1)

/-- Full value-range invariant of the data model. -/
def CapsInRange (c : AgentCapability) : Prop :=
  TrustCollabInRange c ∧ (∀ p ∈ c.available_resources, 0 ≤ p.2) ∧
    0 ≤ c.current_workload ∧ c.current_workload ≤ 1

instance (c : AgentCapability) : Decidable (TrustCollabInRange c) := by
  unfold TrustCollabInRange; infer_instance

instance (c : AgentCapability) : Decidable (CapsInRange c) := by
  unfold CapsInRange; infer_instance

/-- Effective availability of one resource kind:
`availableResources[kind] * (1 - currentWorkload)` (missing kinds count 0). -/
def effective_available (caps : AgentCapability) (k : String) : ℚ :=
  caps.available_resources.getD k 0 * (1 - caps.current_workload)

/-- Every amount offered in the given offer is at most the agent's effective
availability for that resource kind. -/
def OfferedWithinAvailability (caps : AgentCapability) (offer : NegotiationOffer) : Prop :=
  ∀ p ∈ offer.resources_offered, p.2 ≤ effective_available caps p.1

/-! Lemmas about the association-list maps. -/

theorem RMap.getD_scale (m : RMap) (c : ℚ) (k : String) :
    (RMap.scale m c).getD k 0 = m.getD k 0 * c := by
  induction m with
  | nil => simp [RMap.scale, RMap.getD]
  | cons p rest ih =>
    by_cases h : p.1 = k
    · simp [RMap.scale, RMap.getD, h]
    · simp only [RMap.scale, List.map_cons, RMap.getD, h, if_false]
      simpa [RMap.scale] using ih

theorem RMap.getD_prop {P : ℚ → Prop} {m : RMap} {d : ℚ}
    (hm : ∀ p ∈ m, P p.2) (hd : P d) (k : String) : P (m.getD k d) := by
  induction m with
  | nil => simpa [RMap.getD]
  | cons p rest ih =>
    by_cases h : p.1 = k
    · simpa [RMap.getD, h] using hm p (by simp)
    · simp only [RMap.getD, h, if_false]
      exact ih (fun q hq => hm q (by simp [hq]))

theorem RMap.getD_eq_of_mem {m : RMap} {k : String} {v d : ℚ}
    (hnd : m.keysNodup) (hmem : (k, v) ∈ m) : m.getD k d = v := by
  induction m with
  | nil => cases hmem
  | cons p rest ih =>
    rcases List.mem_cons.mp hmem with h | h
    · cases h; simp [RMap.getD]
    · have hk : k ∈ rest.map Prod.fst := List.mem_map.mpr ⟨(k, v), h, rfl⟩
      have hne : p.1 ≠ k := by
        intro he
        have := (List.nodup_cons.mp hnd).1
        exact this (he ▸ hk)
      have hnd2 : RMap.keysNodup rest := (List.nodup_cons.mp hnd).2
      simp [RMap.getD, hne, ih hnd2 h]

theorem RMap.set_prop {P : ℚ → Prop} {m : RMap} {k : String} {v : ℚ}
    (hm : ∀ p ∈ m, P p.2) (hv : P v) : ∀ p ∈ m.set k v, P p.2 := by
  induction m with
  | nil => intro p hp; simp [RMap.set] at hp; simp [hp, hv]
  | cons q rest ih =>
    intro p hp
    by_cases h : q.1 = k
    · simp [RMap.set, h] at hp
      rcases hp with hp | hp
      · simp [hp, hv]
      · exact hm p (by simp [hp])
    · simp [RMap.set, h] at hp
      rcases hp with hp | hp
      · exact hm p (by simp [hp])
      · exact ih (fun r hr => hm r (by simp [hr])) p hp

theorem RMap.mem_scale {m : RMap} {c : ℚ} {p : String × ℚ}
    (hp : p ∈ RMap.scale m c) : ∃ a, (p.1, a) ∈ m ∧ p.2 = a * c := by
  rcases List.mem_map.mp hp with ⟨q, hq, he⟩
  exact ⟨q.2, by simpa [← he] using hq, by simp [← he]⟩

instance (m : RMap) : Decidable (RMap.keysNodup m) := by
  unfold RMap.keysNodup; infer_instance

/-! Concrete fixtures used by the closed witness and scenario statements. -/

/-- Concrete well-formed agent state: one cpu slot, 20% workload, one known
peer with 0.9 trust and 0.9 collaboration history. -/
def capsA : AgentCapability :=
  { agent_id := "me", available_resources := [("cpu", 1)],
    expertise_areas := ["fraud_detection"], current_workload := 1/5,
    collaboration_history := [("peer", 9/10)],
    negotiation_style := "adaptive", trust_scores := [("peer", 9/10)] }

/-- Concrete request for one cpu slot. -/
def reqA : Request := { resources_needed := [("cpu", 1)], required_expertise := [], priority := 1/2 }

/-- Concrete incoming offer from the known peer. -/
def offerA : NegotiationOffer :=
  { from_agent := "peer", to_agent := "me",
    negotiation_type := NegotiationType.resource_allocation,
    resources_requested := [("cpu", 1/2)], resources_offered := [("cpu", 1)],
    constraints := [], priority := 1/2, confidence := 1 }

/-- Concrete initiator-side session in its first round. -/
def sessA : Negotiation :=
  { negotiation_type := NegotiationType.resource_allocation,
    status := NegotiationStatus.initiated, current_round := 1,
    max_rounds := some 10, deadline := some 100, initial_request := some reqA,
    peer_offer := none, history := [], our_last_offer := none }

/-- Relationship scores looked up with the source's 0.5 default stay in
[0,1] when all stored values do. -/
theorem getD_half_in_unit {m : RMap} (hm : ∀ p ∈ m, 0 ≤ p.2 ∧ p.2 ≤ 1)
    (k : String) : 0 ≤ m.getD k (1/2) ∧ m.getD k (1/2) ≤ 1 :=
  RMap.getD_prop (P := fun x => 0 ≤ x ∧ x ≤ 1) hm (by norm_num) k

/-- Effective availability is nonnegative under the data-model ranges. -/
theorem effective_available_nonneg {caps : AgentCapability} (hC : CapsInRange caps)
    (k : String) : 0 ≤ effective_available caps k := by
  rcases hC with ⟨-, hres, -, hw1⟩
  have h0 : (0 : ℚ) ≤ caps.available_resources.getD k 0 :=
    RMap.getD_prop (P := fun x => 0 ≤ x) hres le_rfl k
  have h1 : (0 : ℚ) ≤ 1 - caps.current_workload := by linarith
  exact mul_nonneg h0 h1

/-- The workload-discounted resource map agrees pointwise with
`effective_available`. -/
theorem calculate_available_getD (caps : AgentCapability) (k : String) :
    (calculate_available_resources caps).getD k 0 = effective_available caps k := by
  simp [calculate_available_resources, effective_available, RMap.getD_scale]

/-- Scaling the workload-discounted availability by any factor at most 1
keeps every entry within effective availability. -/
theorem scale_available_within {caps : AgentCapability} (hC : CapsInRange caps)
    (hnd : RMap.keysNodup caps.available_resources) {f : ℚ} (hf : f ≤ 1) :
    ∀ p ∈ RMap.scale (calculate_available_resources caps) f,
      p.2 ≤ effective_available caps p.1 := by
  intro p hp
  rcases RMap.mem_scale hp with ⟨a1, ha1, he1⟩
  rcases RMap.mem_scale ha1 with ⟨a, ha, he2⟩
  have hget : caps.available_resources.getD p.1 0 = a :=
    RMap.getD_eq_of_mem hnd ha
  have ha0 : 0 ≤ a := hC.2.1 (p.1, a) ha
  have hw1 : caps.current_workload ≤ 1 := hC.2.2.2
  have hx : 0 ≤ a * (1 - caps.current_workload) :=
    mul_nonneg ha0 (by linarith)
  have he2' : a1 = a * (1 - caps.current_workload) := by simpa using he2
  have : p.2 = a * (1 - caps.current_workload) * f := by
    rw [he1, he2']
  rw [this, effective_available, hget]
  exact mul_le_of_le_one_right hx hf

/-- The clamped offered map produced by offer refinement lies within
effective availability, whatever maps it starts from. -/
theorem refine_resources_within {caps : AgentCapability} (hC : CapsInRange caps)
    (offered requested : RMap) (score : ℚ) :
    ∀ p ∈ (refine_resources caps offered requested score).1,
      p.2 ≤ effective_available caps p.1 := by
  intro p hp
  simp only [refine_resources] at hp
  rcases List.mem_map.mp hp with ⟨q, hq, he⟩
  have hA : (0 : ℚ) ≤ effective_available caps q.1 := effective_available_nonneg hC q.1
  have : p.2 = min q.2 ((calculate_available_resources caps).getD q.1 0 * (9/10)) := by
    simp [← he]
  rw [this, calculate_available_getD]
  have h1 : effective_available caps q.1 * (9/10) ≤ effective_available caps q.1 :=
    mul_le_of_le_one_right hA (by norm_num)
  have h2 : p.1 = q.1 := by simp [← he]
  rw [h2]
  exact le_trans (min_le_right _ _) h1

/-- Products of nonnegative rationals are nonnegative. -/
theorem list_prod_nonneg {l : List ℚ} (h : ∀ x ∈ l, 0 ≤ x) : 0 ≤ l.prod := by
  induction l with
  | nil => simp
  | cons a t ih =>
    rw [List.prod_cons]
    exact mul_nonneg (h a (by simp)) (ih (fun x hx => h x (by simp [hx])))

/-- C1: every offer the engine formulates — the initial offer, the
responder's counter-offer and the refined offer — offers each resource kind
at most the agent's effective availability
`availableResources[kind] * (1 - currentWorkload)`, given the data-model
value ranges (trust and collaboration scores in [0,1], nonnegative nominal
resources, workload in [0,1]) and a well-formed resource dict. -/
theorem offers_respect_effective_availability
    (caps : AgentCapability) (numActive : ℕ) (target fromAgent : String)
    (nt : NegotiationType) (req : Request) (rand : ℚ)
    (peerOffer : NegotiationOffer) (ourLast : Option NegotiationOffer) (score : ℚ)
    (hC : CapsInRange caps) (hnd : RMap.keysNodup caps.available_resources) :
    OfferedWithinAvailability caps
        (formulate_initial_offer caps numActive target nt req rand) ∧
      OfferedWithinAvailability caps
        (formulate_counter_offer caps numActive fromAgent peerOffer req rand) ∧
      OfferedWithinAvailability caps
        (refine_offer caps numActive peerOffer ourLast score) := by
  refine ⟨?_, ?_, ?_⟩
  · intro p hp
    simp only [formulate_initial_offer] at hp
    have ht := getD_half_in_unit hC.1.1 target
    have hh := getD_half_in_unit hC.1.2 target
    have hg : (caps.trust_scores.getD target (1/2) +
        caps.collaboration_history.getD target (1/2)) / 2 ≤ 1 := by
      rcases ht with ⟨-, ht1⟩; rcases hh with ⟨-, hh1⟩; linarith
    exact scale_available_within hC hnd hg p hp
  · intro p hp
    simp only [formulate_counter_offer] at hp
    split_ifs at hp
    · exact scale_available_within hC hnd (by norm_num) p hp
    · exact scale_available_within hC hnd (by norm_num) p hp
    · have ht := getD_half_in_unit hC.1.1 fromAgent
      have hf : 2/5 + caps.trust_scores.getD fromAgent (1/2) * (2/5) ≤ 1 := by
        rcases ht with ⟨-, ht1⟩; nlinarith
      exact scale_available_within hC hnd hf p hp
  · intro p hp
    simp only [refine_offer] at hp
    exact refine_resources_within hC _ _ _ p hp

/-- Membership facts needed to check `CapsInRange` on the fixture. -/
theorem capsA_in_range : CapsInRange capsA ∧ RMap.keysNodup capsA.available_resources := by
  refine ⟨⟨⟨?_, ?_⟩, ?_, by norm_num [capsA], by norm_num [capsA]⟩, ?_⟩ <;>
    simp [capsA, RMap.keysNodup] <;> norm_num

/-- Closed instance of the availability bound on the concrete agent state. -/
theorem offers_respect_effective_availability_witness :
    (CapsInRange capsA ∧ RMap.keysNodup capsA.available_resources) ∧
      OfferedWithinAvailability capsA
        (formulate_initial_offer capsA 0 "peer" NegotiationType.resource_allocation reqA 0) :=
  ⟨capsA_in_range,
    (offers_respect_effective_availability capsA 0 "peer" "peer"
      NegotiationType.resource_allocation reqA 0 offerA none 0
      capsA_in_range.1 capsA_in_range.2).1⟩

/-- C2: the acceptance score of an incoming offer equals
`min 1 ((0.4*needsSatisfaction + 0.4*requestReasonableness + 0.1*trust[from]
+ 0.1*collaborationHistory[from]) * (0.5 + 0.5*confidence))`, where
needsSatisfaction is the mean over needed resources of
`min(1, offered/needed)` and requestReasonableness the product over requested
resources of `min(1, available/requested)`; the result lies in [0,1].  Stated
for positive needed/requested amounts (the divisions the claim writes) and a
nonempty needs map, over the scoring core with the needs map abstracted at
the site where the source calls its stubbed needs assessment. -/
theorem evaluate_offer_score_spec (caps : AgentCapability) (needs : RMap)
    (offer : NegotiationOffer)
    (hC : CapsInRange caps)
    (hne : needs ≠ [])
    (hneeds : ∀ p ∈ needs, 0 < p.2)
    (hreq : ∀ p ∈ offer.resources_requested, 0 < p.2)
    (hoff : ∀ p ∈ offer.resources_offered, 0 ≤ p.2)
    (hconf0 : 0 ≤ offer.confidence) (hconf1 : offer.confidence ≤ 1) :
    evaluate_offer_with caps needs offer =
      min 1 (((2/5) * ((needs.map
            (fun p => min 1 (offer.resources_offered.getD p.1 0 / p.2))).sum /
              (needs.length : ℚ)) +
          (2/5) * ((offer.resources_requested.map
            (fun p => min 1 ((calculate_available_resources caps).getD p.1 0 / p.2))).prod) +
          (1/10) * caps.trust_scores.getD offer.from_agent (1/2) +
          (1/10) * caps.collaboration_history.getD offer.from_agent (1/2)) *
        (1/2 + (1/2) * offer.confidence)) ∧
      0 ≤ evaluate_offer_with caps needs offer ∧
      evaluate_offer_with caps needs offer ≤ 1 := by
  have hoff0 : ∀ k, 0 ≤ offer.resources_offered.getD k 0 := fun k =>
    RMap.getD_prop (P := fun x => 0 ≤ x) hoff le_rfl k
  have havail0 : ∀ k, 0 ≤ (calculate_available_resources caps).getD k 0 := by
    intro k
    rw [calculate_available_getD]
    exact effective_available_nonneg hC k
  have hns_eq : (needs.map (fun p =>
      if 0 < p.2 then min 1 (offer.resources_offered.getD p.1 0 / p.2) else 1)) =
      needs.map (fun p => min 1 (offer.resources_offered.getD p.1 0 / p.2)) := by
    apply List.map_congr_left
    intro p hp
    simp [hneeds p hp]
  have hrr_eq : (offer.resources_requested.map (fun p =>
      if (calculate_available_resources caps).getD p.1 0 < p.2 then
        (calculate_available_resources caps).getD p.1 0 / p.2 else 1)) =
      offer.resources_requested.map
        (fun p => min 1 ((calculate_available_resources caps).getD p.1 0 / p.2)) := by
    apply List.map_congr_left
    intro p hp
    by_cases h : (calculate_available_resources caps).getD p.1 0 < p.2
    · have : (calculate_available_resources caps).getD p.1 0 / p.2 < 1 :=
        (div_lt_one (hreq p hp)).mpr h
      simp [h, min_eq_right this.le]
    · push_neg at h
      have : 1 ≤ (calculate_available_resources caps).getD p.1 0 / p.2 :=
        (one_le_div (hreq p hp)).mpr h
      simp [not_lt.mpr h, min_eq_left this]
  have hempty : needs.isEmpty = false := by
    cases needs with
    | nil => exact absurd rfl hne
    | cons a t => rfl
  have hmain : evaluate_offer_with caps needs offer =
      min 1 (((2/5) * ((needs.map
            (fun p => min 1 (offer.resources_offered.getD p.1 0 / p.2))).sum /
              (needs.length : ℚ)) +
          (2/5) * ((offer.resources_requested.map
            (fun p => min 1 ((calculate_available_resources caps).getD p.1 0 / p.2))).prod) +
          (1/10) * caps.trust_scores.getD offer.from_agent (1/2) +
          (1/10) * caps.collaboration_history.getD offer.from_agent (1/2)) *
        (1/2 + (1/2) * offer.confidence)) := by
    simp only [evaluate_offer_with, hempty, Bool.false_eq_true, if_false, hns_eq, hrr_eq]
    congr 1
    ring
  refine ⟨hmain, ?_, ?_⟩
  · rw [hmain]
    have hNS : 0 ≤ (needs.map
        (fun p => min 1 (offer.resources_offered.getD p.1 0 / p.2))).sum /
          (needs.length : ℚ) := by
      apply div_nonneg
      · apply List.sum_nonneg
        intro x hx
        rcases List.mem_map.mp hx with ⟨p, hp, he⟩
        rw [← he]
        exact le_min (by norm_num) (div_nonneg (hoff0 p.1) (hneeds p hp).le)
      · exact_mod_cast Nat.zero_le _
    have hRR : 0 ≤ (offer.resources_requested.map
        (fun p => min 1 ((calculate_available_resources caps).getD p.1 0 / p.2))).prod := by
      apply list_prod_nonneg
      intro x hx
      rcases List.mem_map.mp hx with ⟨p, hp, he⟩
      rw [← he]
      exact le_min (by norm_num) (div_nonneg (havail0 p.1) (hreq p hp).le)
    have hT := getD_half_in_unit hC.1.1 offer.from_agent
    have hH := getD_half_in_unit hC.1.2 offer.from_agent
    apply le_min (by norm_num)
    apply mul_nonneg
    · nlinarith [hT.1, hH.1]
    · linarith
  · rw [hmain]
    exact min_le_left _ _

/-- Closed instance of the scoring formula on concrete inputs. -/
theorem evaluate_offer_score_spec_witness :
    (CapsInRange capsA ∧ ([("cpu", (1 : ℚ))] : RMap) ≠ [] ∧
      (∀ p ∈ ([("cpu", (1 : ℚ))] : RMap), 0 < p.2) ∧
      (∀ p ∈ offerA.resources_requested, 0 < p.2) ∧
      (∀ p ∈ offerA.resources_offered, 0 ≤ p.2) ∧
      0 ≤ offerA.confidence ∧ offerA.confidence ≤ 1) ∧
    (evaluate_offer_with capsA [("cpu", 1)] offerA =
      min 1 (((2/5) * ((([("cpu", (1 : ℚ))] : RMap).map
            (fun p => min 1 (offerA.resources_offered.getD p.1 0 / p.2))).sum /
              (([("cpu", (1 : ℚ))] : RMap).length : ℚ)) +
          (2/5) * ((offerA.resources_requested.map
            (fun p => min 1 ((calculate_available_resources capsA).getD p.1 0 / p.2))).prod) +
          (1/10) * capsA.trust_scores.getD offerA.from_agent (1/2) +
          (1/10) * capsA.collaboration_history.getD offerA.from_agent (1/2)) *
        (1/2 + (1/2) * offerA.confidence)) ∧
      0 ≤ evaluate_offer_with capsA [("cpu", 1)] offerA ∧
      evaluate_offer_with capsA [("cpu", 1)] offerA ≤ 1) :=
  ⟨⟨capsA_in_range.1, by simp, by norm_num, by norm_num [offerA],
      by norm_num [offerA], by norm_num [offerA], by norm_num [offerA]⟩,
    evaluate_offer_score_spec capsA [("cpu", 1)] offerA capsA_in_range.1
      (by simp) (by norm_num) (by norm_num [offerA]) (by norm_num [offerA])
      (by norm_num [offerA]) (by norm_num [offerA])⟩

/-- C3: handling a counter-offer on a known session follows exactly the
decision rule — score above 0.8 moves the session to ACCEPTED and executes
the created agreement; otherwise a round count at or past `maxRounds`
(default 10) moves it to REJECTED with reason max_rounds_exceeded; otherwise
a refined counter-offer is produced — and a refined counter-offer is only
ever produced while the round count is still below `maxRounds`, so the loop
cannot run past it. -/
theorem counter_offer_decision_rule (caps : AgentCapability) (numActive : ℕ)
    (neg : Negotiation) (offer : NegotiationOffer) :
    (handle_counter_offer caps numActive neg offer =
      (let advanced : Negotiation := { neg with current_round := neg.current_round + 1, peer_offer := some offer, history := neg.history ++ [offer] }
       let score := evaluate_offer caps advanced offer
       if 4/5 < score then
         ({ advanced with status := NegotiationStatus.accepted },
           execute_agreement caps (create_agreement offer advanced),
           CounterOfferOutcome.accepted (create_agreement offer advanced))
       else if neg.max_rounds.getD 10 ≤ neg.current_round + 1 then
         ({ advanced with status := NegotiationStatus.rejected }, caps,
           CounterOfferOutcome.rejected ("max_rounds_exceeded"))
       else
         let refined := refine_offer caps numActive offer neg.our_last_offer score
         ({ advanced with our_last_offer := some refined }, caps,
           CounterOfferOutcome.counterOffered refined))) ∧
    ∀ o, (handle_counter_offer caps numActive neg offer).2.2 =
        CounterOfferOutcome.counterOffered o →
      neg.current_round + 1 < neg.max_rounds.getD 10 := by
  constructor
  · rfl
  · intro o h
    simp only [handle_counter_offer] at h
    split_ifs at h with h1 h2
    omega

/-- Closed instance of the decision rule: a session in round 9 with the
default 10-round budget and a mid-scoring counter-offer is rejected with
reason max_rounds_exceeded. -/
theorem counter_offer_decision_rule_witness :
    (handle_counter_offer capsA 0 { sessA with current_round := 9 } offerA).2.2 =
      CounterOfferOutcome.rejected ("max_rounds_exceeded") := by
  have h := (counter_offer_decision_rule capsA 0 { sessA with current_round := 9 } offerA).1
  rw [h]
  norm_num [evaluate_offer, evaluate_offer_with, assess_our_needs, sessA, reqA,
    offerA, capsA, calculate_available_resources, RMap.scale, RMap.getD, Request.empty]

/-- Gate-level form of the participation decision: the gate returns false
exactly on the disjunction of the five decline conditions. -/
theorem participation_gate_false_iff (caps : AgentCapability)
    (fromAgent : String) (offer : NegotiationOffer) (req : Request) :
    evaluate_negotiation_participation caps fromAgent offer req = false ↔
      (caps.trust_scores.getD fromAgent (1/2) < 3/10 ∨
        (∃ p ∈ req.resources_needed,
          (calculate_available_resources caps).getD p.1 0 < p.2 * (1/2)) ∨
        4/5 < caps.current_workload ∨
        (req.required_expertise ≠ [] ∧
          ∀ e ∈ req.required_expertise, e ∉ caps.expertise_areas) ∨
        calculate_potential_benefit offer req < 3/10) := by
  unfold evaluate_negotiation_participation extract_resource_requirements
  split_ifs with h1 h2 h3 h4 h5 <;> simp_all

/-- C4: an incoming negotiation request is declined — no session is created
and no offer round is consumed — if and only if the sender's trust is below
0.3, or some required resource is effectively available below 50% of the
requested amount, or the workload exceeds 0.8, or nonempty required
expertise has zero overlap with the receiver's expertise areas, or the
estimated potential benefit is below 0.3. -/
theorem participation_gate_iff (caps : AgentCapability) (numActive : ℕ)
    (fromAgent : String) (nt : NegotiationType) (initialOffer : NegotiationOffer)
    (req : Request) (rand : ℚ) :
    handle_negotiation_request caps numActive fromAgent nt initialOffer req rand =
        RequestOutcome.declined ("insufficient_resources_or_interest")
          (suggest_alternatives req) ↔
      (caps.trust_scores.getD fromAgent (1/2) < 3/10 ∨
        (∃ p ∈ req.resources_needed,
          (calculate_available_resources caps).getD p.1 0 < p.2 * (1/2)) ∨
        4/5 < caps.current_workload ∨
        (req.required_expertise ≠ [] ∧
          ∀ e ∈ req.required_expertise, e ∉ caps.expertise_areas) ∨
        calculate_potential_benefit initialOffer req < 3/10) := by
  rw [← participation_gate_false_iff caps fromAgent initialOffer req]
  unfold handle_negotiation_request
  by_cases h : evaluate_negotiation_participation caps fromAgent initialOffer req <;>
    simp [h]

/-- Closed instance of the gate: a sender trusted at 0.1 is declined. -/
theorem participation_gate_iff_witness :
    handle_negotiation_request
        { capsA with trust_scores := [("peer", 1/10)] } 0 "peer"
        NegotiationType.resource_allocation offerA reqA 0 =
      RequestOutcome.declined ("insufficient_resources_or_interest")
        (suggest_alternatives reqA) :=
  (participation_gate_iff { capsA with trust_scores := [("peer", 1/10)] } 0
      "peer" NegotiationType.resource_allocation offerA reqA 0).mpr
    (Or.inl (by norm_num [capsA, RMap.getD]))

/-- A list is pointwise related to its image under a map. -/
theorem forall₂_self_map {α β : Type} {R : α → β → Prop} {l : List α}
    {f : α → β} (h : ∀ a ∈ l, R a (f a)) : List.Forall₂ R l (l.map f) := by
  induction l with
  | nil => simp
  | cons a t ih =>
    exact List.Forall₂.cons (h a (by simp)) (ih (fun x hx => h x (by simp [hx])))

/-- The offered map of one refinement step, as a single entrywise map. -/
theorem refine_resources_fst_eq (caps : AgentCapability)
    (offered requested : RMap) (score : ℚ) :
    (refine_resources caps offered requested score).1 =
      offered.map (fun p => (p.1,
        min (p.2 * (1 + (1 - score) * (3/10)))
          ((calculate_available_resources caps).getD p.1 0 * (9/10)))) := by
  simp [refine_resources, RMap.scale, List.map_map]

/-- C5: one refinement step with improvement `(1 - score) * 0.3` never
decreases any offered amount and never increases any requested amount
(entrywise, with keys preserved), as long as the current offered amounts sit
at or below the 90%-of-effective-availability clamp — and the step
re-establishes that clamp bound together with nonnegativity, so the
monotonicity carries across any sequence of successive refinements. -/
theorem refine_offer_monotone (caps : AgentCapability)
    (offered requested : RMap) (score : ℚ)
    (hC : CapsInRange caps)
    (hs0 : 0 ≤ score) (hs1 : score ≤ 1)
    (hoff : ∀ p ∈ offered, 0 ≤ p.2 ∧
      p.2 ≤ (calculate_available_resources caps).getD p.1 0 * (9/10))
    (hreq : ∀ p ∈ requested, 0 ≤ p.2) :
    List.Forall₂ (fun p q => p.1 = q.1 ∧ p.2 ≤ q.2) offered
        (refine_resources caps offered requested score).1 ∧
      List.Forall₂ (fun p q => p.1 = q.1 ∧ q.2 ≤ p.2) requested
        (refine_resources caps offered requested score).2 ∧
      (∀ q ∈ (refine_resources caps offered requested score).1,
        0 ≤ q.2 ∧ q.2 ≤ (calculate_available_resources caps).getD q.1 0 * (9/10)) ∧
      (∀ q ∈ (refine_resources caps offered requested score).2, 0 ≤ q.2) := by
  have himp0 : 0 ≤ (1 - score) * (3/10) := by nlinarith
  have himp1 : (1 - score) * (3/10) ≤ 3/10 := by nlinarith
  have havail0 : ∀ k, 0 ≤ (calculate_available_resources caps).getD k 0 := by
    intro k
    rw [calculate_available_getD]
    exact effective_available_nonneg hC k
  refine ⟨?_, ?_, ?_, ?_⟩
  · rw [refine_resources_fst_eq]
    apply forall₂_self_map
    intro p hp
    refine ⟨rfl, le_min ?_ (hoff p hp).2⟩
    exact le_mul_of_one_le_right (hoff p hp).1 (by linarith)
  · show List.Forall₂ _ requested (RMap.scale requested _)
    apply forall₂_self_map
    intro p hp
    refine ⟨rfl, ?_⟩
    exact mul_le_of_le_one_right (hreq p hp) (by linarith)
  · rw [refine_resources_fst_eq]
    intro q hq
    rcases List.mem_map.mp hq with ⟨p, hp, he⟩
    have h1 : q.1 = p.1 := by simp [← he]
    have h2 : q.2 = min (p.2 * (1 + (1 - score) * (3/10)))
        ((calculate_available_resources caps).getD p.1 0 * (9/10)) := by
      simp [← he]
    rw [h1, h2]
    constructor
    · exact le_min (mul_nonneg (hoff p hp).1 (by linarith))
        (mul_nonneg (havail0 p.1) (by norm_num))
    · exact min_le_right _ _
  · show ∀ q ∈ RMap.scale requested _, 0 ≤ q.2
    intro q hq
    rcases RMap.mem_scale hq with ⟨a, ha, he⟩
    rw [he]
    exact mul_nonneg (hreq (q.1, a) ha) (by linarith)

/-- Closed instance of refinement monotonicity on concrete maps. -/
theorem refine_offer_monotone_witness :
    (CapsInRange capsA ∧ (0 : ℚ) ≤ 1/2 ∧ (1/2 : ℚ) ≤ 1 ∧
      (∀ p ∈ ([("cpu", (1/2 : ℚ))] : RMap), 0 ≤ p.2 ∧
        p.2 ≤ (calculate_available_resources capsA).getD p.1 0 * (9/10)) ∧
      (∀ p ∈ ([("mem", (1 : ℚ))] : RMap), 0 ≤ p.2)) ∧
    List.Forall₂ (fun p q => p.1 = q.1 ∧ p.2 ≤ q.2) ([("cpu", (1/2 : ℚ))] : RMap)
      (refine_resources capsA [("cpu", 1/2)] [("mem", 1)] (1/2)).1 ∧
    List.Forall₂ (fun p q => p.1 = q.1 ∧ q.2 ≤ p.2) ([("mem", (1 : ℚ))] : RMap)
      (refine_resources capsA [("cpu", 1/2)] [("mem", 1)] (1/2)).2 :=
  ⟨⟨capsA_in_range.1, by norm_num, by norm_num,
      by norm_num [capsA, calculate_available_resources, RMap.scale, RMap.getD],
      by norm_num⟩,
    (refine_offer_monotone capsA [("cpu", 1/2)] [("mem", 1)] (1/2)
        capsA_in_range.1 (by norm_num) (by norm_num)
        (by norm_num [capsA, calculate_available_resources, RMap.scale, RMap.getD])
        (by norm_num)).1,
    (refine_offer_monotone capsA [("cpu", 1/2)] [("mem", 1)] (1/2)
        capsA_in_range.1 (by norm_num) (by norm_num)
        (by norm_num [capsA, calculate_available_resources, RMap.scale, RMap.getD])
        (by norm_num)).2.1⟩

/-- C6 counterexample: a session whose deadline (time 0) already lies in the
past is handled like any other on its next access — its status does not
become EXPIRED and the session is still used to evaluate the incoming offer
and to produce a further refined counter-offer. -/
theorem expired_session_still_used :
    (handle_counter_offer capsA 0
          { sessA with deadline := some 0, status := NegotiationStatus.in_progress }
          offerA).1.status = NegotiationStatus.in_progress ∧
      (handle_counter_offer capsA 0
          { sessA with deadline := some 0, status := NegotiationStatus.in_progress }
          offerA).2.2.isCounterOffered = true := by
  norm_num [handle_counter_offer, evaluate_offer, evaluate_offer_with,
    assess_our_needs, sessA, reqA, offerA, capsA, calculate_available_resources,
    RMap.scale, RMap.getD, Request.empty, CounterOfferOutcome.isCounterOffered]

/-- C6 amended: no handler checks the session deadline.  Handling a
counter-offer is fully independent of the deadline field (the result is the
same up to carrying the deadline along), and the resulting status is only
ever ACCEPTED, REJECTED, or the status the session already had — so no
access transitions a session to EXPIRED, and a session whose deadline has
passed keeps being used for further offers. -/
theorem deadline_never_checked (caps : AgentCapability) (numActive : ℕ)
    (neg : Negotiation) (offer : NegotiationOffer) (d : Option ℚ) :
    ((handle_counter_offer caps numActive { neg with deadline := d } offer).1 =
        { (handle_counter_offer caps numActive neg offer).1 with deadline := d } ∧
      (handle_counter_offer caps numActive { neg with deadline := d } offer).2 =
        (handle_counter_offer caps numActive neg offer).2) ∧
      ((handle_counter_offer caps numActive neg offer).1.status =
          NegotiationStatus.accepted ∨
        (handle_counter_offer caps numActive neg offer).1.status =
          NegotiationStatus.rejected ∨
        (handle_counter_offer caps numActive neg offer).1.status = neg.status) := by
  obtain ⟨nt0, st0, cr0, mr0, dl0, ir0, po0, hi0, ol0⟩ := neg
  constructor
  · constructor <;>
      · simp only [handle_counter_offer, evaluate_offer]
        split_ifs <;> rfl
  · simp only [handle_counter_offer]
    split_ifs <;> simp

/-- Concrete previously created offer (the engine's own last refined offer,
as stored in `our_last_offer`). -/
def prevA : NegotiationOffer :=
  { from_agent := "me", to_agent := "peer",
    negotiation_type := NegotiationType.resource_allocation,
    resources_requested := [("mem", 1)], resources_offered := [("cpu", 1/2)],
    constraints := [], priority := 1/2, confidence := 1/2 }

/-- C7 counterexample: refining with current score 0.5 rewrites the previous
offer's own resource maps in place — after the call the previously created
offer carries cpu offered 23/40 (was 1/2) and mem requested 37/40 (was 1),
so it is not the offer that was created. -/
theorem refine_mutates_previous_offer :
    (refine_offer_from capsA 0 offerA prevA (1/2)).2.resources_offered.getD ("cpu") 0 = 23/40 ∧
      prevA.resources_offered.getD ("cpu") 0 = 1/2 ∧
      (refine_offer_from capsA 0 offerA prevA (1/2)).2.resources_requested.getD ("mem") 0 = 37/40 ∧
      prevA.resources_requested.getD ("mem") 0 = 1 ∧
      (refine_offer_from capsA 0 offerA prevA (1/2)).2 ≠ prevA := by
  refine ⟨?_, ?_, ?_, ?_, ?_⟩
  · norm_num [refine_offer_from, refine_resources, refine_offer, capsA, prevA,
      calculate_available_resources, RMap.scale, RMap.getD]
  · norm_num [prevA, RMap.getD]
  · norm_num [refine_offer_from, refine_resources, refine_offer, capsA, prevA,
      calculate_available_resources, RMap.scale, RMap.getD]
  · norm_num [prevA, RMap.getD]
  · intro h
    have h2 := congrArg (fun o : NegotiationOffer => o.resources_offered.getD ("cpu") 0) h
    norm_num [refine_offer_from, refine_resources, refine_offer, capsA, prevA,
      calculate_available_resources, RMap.scale, RMap.getD] at h2

/-- C7 amended: each refinement call mutates exactly the two resource maps of
the previously created offer it refines (through the `our_last_offer` alias
to that offer's `__dict__`), leaving them equal to the fresh refined offer's
maps; all other fields of the previous offer are untouched. -/
theorem refine_offer_mutation_exact (caps : AgentCapability) (numActive : ℕ)
    (peerOffer prev : NegotiationOffer) (score : ℚ) :
    (refine_offer_from caps numActive peerOffer prev score).2 =
      { prev with resources_offered := (refine_offer_from caps numActive peerOffer prev score).1.resources_offered, resources_requested := (refine_offer_from caps numActive peerOffer prev score).1.resources_requested } :=
  rfl

/-- Agreement committing more cpu than the agent has available. -/
def agOver : Agreement :=
  { resources_committed := [("cpu", 2)], workload_increase := 0, peer_agent := "" }

/-- C8 counterexample: from an in-range state with one cpu slot, executing an
agreement that commits two cpu slots drives the available amount to -1 — the
subtraction in agreement execution is not clamped at zero. -/
theorem execute_agreement_negative_resource :
    CapsInRange capsA ∧
      (applyOps capsA [EngineOp.executeAgreement agOver]).available_resources.getD ("cpu") 0 = -1 := by
  refine ⟨capsA_in_range.1, ?_⟩
  norm_num [applyOps, EngineOp.apply, execute_agreement, agOver, capsA,
    RMap.subAt, RMap.getD, update_trust_score, update_collaboration_history]

/-- Trust updates keep both relationship maps in [0,1] (the source clamps
the new trust value into [0,1]). -/
theorem update_trust_score_preserves (caps : AgentCapability) (a : String)
    (c : ℚ) (h : TrustCollabInRange caps) :
    TrustCollabInRange (update_trust_score caps a c) := by
  obtain ⟨ht, hh⟩ := h
  refine ⟨?_, ?_⟩
  · simp only [update_trust_score]
    apply RMap.set_prop (P := fun x => 0 ≤ x ∧ x ≤ 1) ht
    exact ⟨le_max_left 0 _, max_le zero_le_one (min_le_left _ _)⟩
  · simpa [update_trust_score] using hh

/-- Collaboration-history updates keep both relationship maps in [0,1] (the
exponential moving average of in-range values stays in range; the source
does not clamp here). -/
theorem update_collaboration_history_preserves (caps : AgentCapability)
    (a : String) (s : Bool) (h : TrustCollabInRange caps) :
    TrustCollabInRange (update_collaboration_history caps a s) := by
  obtain ⟨ht, hh⟩ := h
  have hc := getD_half_in_unit hh a
  have hs : (0 : ℚ) ≤ (if s then (1 : ℚ) else 0) ∧
      (if s then (1 : ℚ) else 0) ≤ 1 := by cases s <;> norm_num
  refine ⟨?_, ?_⟩
  · simpa [update_collaboration_history] using ht
  · simp only [update_collaboration_history]
    apply RMap.set_prop (P := fun x => 0 ≤ x ∧ x ≤ 1) hh
    have h1 : (0 : ℚ) ≤ caps.collaboration_history.getD a (1/2) * (9/10) :=
      mul_nonneg hc.1 (by norm_num)
    have h2 : caps.collaboration_history.getD a (1/2) * (9/10) ≤ 9/10 := by
      nlinarith [hc.2]
    have h3 : (0 : ℚ) ≤ (if s then (1 : ℚ) else 0) * (1/10) :=
      mul_nonneg hs.1 (by norm_num)
    have h4 : (if s then (1 : ℚ) else 0) * (1/10) ≤ 1/10 := by
      nlinarith [hs.2]
    exact ⟨by linarith, by linarith⟩

/-- Agreement execution keeps both relationship maps in [0,1]: the resource
and workload writes do not touch them, and the success bookkeeping goes
through the two preserving updates. -/
theorem execute_agreement_preserves (caps : AgentCapability) (ag : Agreement)
    (h : TrustCollabInRange caps) :
    TrustCollabInRange (execute_agreement caps ag) := by
  unfold execute_agreement
  split_ifs with hp
  · exact update_trust_score_preserves _ _ _
      (update_collaboration_history_preserves _ _ _ h)
  · exact h

/-- Any single engine operation preserves the relationship-score ranges. -/
theorem engine_op_preserves (caps : AgentCapability) (op : EngineOp)
    (h : TrustCollabInRange caps) : TrustCollabInRange (EngineOp.apply caps op) := by
  cases op with
  | updateTrust a c => exact update_trust_score_preserves caps a c h
  | updateCollaboration a s => exact update_collaboration_history_preserves caps a s h
  | executeAgreement ag => exact execute_agreement_preserves caps ag h

/-- C8 amended: after any finite sequence of engine operations from an
in-range state, every trust score and collaboration-history value remains in
[0,1] (trust by explicit clamping, collaboration history because the moving
average of in-range values stays in range).  Available-resource amounts, by
contrast, are not clamped and can go negative (see the counterexample). -/
theorem trust_collab_stay_in_range (caps : AgentCapability) (ops : List EngineOp)
    (h : TrustCollabInRange caps) : TrustCollabInRange (applyOps caps ops) := by
  induction ops generalizing caps with
  | nil => simpa [applyOps] using h
  | cons op t ih => exact ih (EngineOp.apply caps op) (engine_op_preserves caps op h)

/-- Closed instance of the range preservation across a concrete operation
sequence containing all three operation kinds. -/
theorem trust_collab_stay_in_range_witness :
    TrustCollabInRange capsA ∧
      TrustCollabInRange (applyOps capsA
        [EngineOp.updateTrust ("peer") 1, EngineOp.updateCollaboration ("other") true,
          EngineOp.executeAgreement agOver]) :=
  ⟨capsA_in_range.1.1,
    trust_collab_stay_in_range capsA
      [EngineOp.updateTrust ("peer") 1, EngineOp.updateCollaboration ("other") true,
        EngineOp.executeAgreement agOver] capsA_in_range.1.1⟩

/-- Session already in the terminal REJECTED status. -/
def sessRejectedA : Negotiation :=
  { sessA with status := NegotiationStatus.rejected, current_round := 2 }

/-- C9 counterexample: a session that is already REJECTED (terminal) is still
advanced by an incoming counter-offer — its round counter is incremented from
2 to 3 and the offer is appended to its history — and an incoming acceptance
message moves its status from REJECTED to COMPLETED. -/
theorem terminal_session_still_advances :
    (handle_counter_offer capsA 0 sessRejectedA offerA).1.current_round = 3 ∧
      (handle_counter_offer capsA 0 sessRejectedA offerA).1.history.length = 1 ∧
      (handle_acceptance capsA sessRejectedA agOver).1.status = NegotiationStatus.completed := by
  refine ⟨?_, ?_, rfl⟩ <;>
    norm_num [handle_counter_offer, evaluate_offer, evaluate_offer_with,
      assess_our_needs, sessRejectedA, sessA, reqA, offerA, capsA,
      calculate_available_resources, RMap.scale, RMap.getD, Request.empty]

/-- C9 amended: the handlers never check the session status, only that the
session exists — handling a counter-offer increments the round counter and
appends to the history of every session, terminal status or not (and then
applies the normal decision rule, which can move the status again), and an
acceptance message sets every existing session's status to COMPLETED. -/
theorem handlers_ignore_session_status (caps : AgentCapability) (numActive : ℕ)
    (neg : Negotiation) (offer : NegotiationOffer) (ag : Agreement) :
    (handle_counter_offer caps numActive neg offer).1.current_round =
        neg.current_round + 1 ∧
      (handle_counter_offer caps numActive neg offer).1.history =
        neg.history ++ [offer] ∧
      (handle_acceptance caps neg ag).1.status = NegotiationStatus.completed := by
  obtain ⟨nt0, st0, cr0, mr0, dl0, ir0, po0, hi0, ol0⟩ := neg
  refine ⟨?_, ?_, rfl⟩ <;>
    · simp only [handle_counter_offer]
      split_ifs <;> rfl

/-- Scenario-A agent state: requested resource fully available (one cpu slot,
zero workload), peer trust 0.9 and collaboration history 0.9. -/
def capsB : AgentCapability :=
  { agent_id := "me", available_resources := [("cpu", 1)],
    expertise_areas := ["fraud_detection"], current_workload := 0,
    collaboration_history := [("peer", 9/10)],
    negotiation_style := "adaptive", trust_scores := [("peer", 9/10)] }

/-- Matching counter-offer for Scenario A: the peer offers the full requested
cpu slot, asks back exactly what was offered to it, with full confidence. -/
def counterB : NegotiationOffer :=
  { from_agent := "peer", to_agent := "me",
    negotiation_type := NegotiationType.resource_allocation,
    resources_requested := [("cpu", 9/10)], resources_offered := [("cpu", 1)],
    constraints := [], priority := 1/2, confidence := 1 }

/-- C10 counterexample: in Scenario A (trust 0.9, collaboration history 0.9,
requested resource fully available) the matching counter-offer evaluates to
29/50 = 0.58, which does not exceed 0.8, and the round-1 session does not
reach ACCEPTED — because the stubbed needs assessment makes needs
satisfaction zero. -/
theorem scenario_a_score_below_threshold :
    evaluate_offer capsB sessA counterB = 29/50 ∧
      ¬ (4/5 < evaluate_offer capsB sessA counterB) ∧
      (handle_counter_offer capsB 0 sessA counterB).1.status ≠
        NegotiationStatus.accepted := by
  have hs : evaluate_offer capsB sessA counterB = 29/50 := by
    norm_num [evaluate_offer, evaluate_offer_with, assess_our_needs, sessA, reqA,
      counterB, capsB, calculate_available_resources, RMap.scale, RMap.getD,
      Request.empty]
  refine ⟨hs, by rw [hs]; norm_num, ?_⟩
  norm_num [handle_counter_offer, evaluate_offer, evaluate_offer_with,
    assess_our_needs, sessA, reqA, counterB, capsB,
    calculate_available_resources, RMap.scale, RMap.getD, Request.empty]
  decide

/-- C10 amended: the generosity part of Scenario A holds — with trust 0.9 and
collaboration history 0.9 the initial offer scales the workload-discounted
resources by exactly 0.9, offering 0.9 cpu — but the evaluation score of the
matching counter-offer is 0.58 (needs satisfaction is 0 since the needs
assessment stub returns the empty map), so instead of reaching ACCEPTED in
round 1 the session advances to round 2 with a refined counter-offer. -/
theorem scenario_a_actual_behavior :
    (formulate_initial_offer capsB 0 "peer" NegotiationType.resource_allocation
        reqA 0).resources_offered =
      RMap.scale (calculate_available_resources capsB) (9/10) ∧
      (formulate_initial_offer capsB 0 "peer" NegotiationType.resource_allocation
        reqA 0).resources_offered = [("cpu", 9/10)] ∧
      evaluate_offer capsB sessA counterB = 29/50 ∧
      (handle_counter_offer capsB 0 sessA counterB).2.2 =
        CounterOfferOutcome.counterOffered
          (refine_offer capsB 0 counterB none (29/50)) ∧
      (handle_counter_offer capsB 0 sessA counterB).1.current_round = 2 := by
  refine ⟨?_, ?_, ?_, ?_, ?_⟩
  · norm_num [formulate_initial_offer, capsB, RMap.getD]
  · norm_num [formulate_initial_offer, capsB, calculate_available_resources,
      RMap.scale, RMap.getD]
  · norm_num [evaluate_offer, evaluate_offer_with, assess_our_needs, sessA, reqA,
      counterB, capsB, calculate_available_resources, RMap.scale, RMap.getD,
      Request.empty]
  · norm_num [handle_counter_offer, evaluate_offer, evaluate_offer_with,
      assess_our_needs, sessA, reqA, counterB, capsB,
      calculate_available_resources, RMap.scale, RMap.getD, Request.empty]
  · norm_num [handle_counter_offer, evaluate_offer, evaluate_offer_with,
      assess_our_needs, sessA, reqA, counterB, capsB,
      calculate_available_resources, RMap.scale, RMap.getD, Request.empty]

end NegotiationProtocol
